import Mathlib

/-!
Shallow embedding of the secure file-access gate of this repository:
the security module (`DEFAULT_SENSITIVE_PATTERNS`, `hasPathTraversal`,
`isSensitiveFile`, `isWithinAllowedDirectory`, `validatePath`,
`validateFileSize`, `validateFileCount`, `mergeSecurityConfig`) and the
file-reader module (`isBinaryFile`, `readFile`, `readFiles`,
`readDirectory`).

JS strings are modelled as Lean `String`s, manipulated through explicit
`List Char` helpers so that every operation is executable and provable.
Node's POSIX path routines (`path.resolve`, `path.relative`,
`path.basename`, `path.extname`, `path.isAbsolute`) are modelled
segment-wise, and `micromatch.isMatch` (options `dot:true`, `nocase:true`)
is modelled by a glob matcher covering the pattern forms the repository
uses (`*`, `**` path segments, literal characters, ASCII case folding).
Filesystem calls (`fs.stat`, `fs.lstat`, `fs.readFile`, `fast-glob`) are
oracle fields of an explicit `FS` record; the number of content reads
performed is threaded through the reader functions as an explicit counter
so that "no content is read" claims are statable.
-/

/-- ASCII lower-casing of one character; models the case folding performed
by `nocase` glob matching and by `.toLowerCase()` on the ASCII strings the
repository compares (extensions, special basenames). -/
def asciiLower (c : Char) : Char :=
  if 65 ≤ c.toNat ∧ c.toNat ≤ 90 then Char.ofNat (c.toNat + 32) else c

/-- Lower-case a character list. -/
def lowerChars (cs : List Char) : List Char := cs.map asciiLower

/-- Boolean "is p a prefix of s" on character lists; models JS
`String.prototype.startsWith`. -/
def isPre : List Char → List Char → Bool
  | [], _ => true
  | _ :: _, [] => false
  | a :: as, b :: bs => a == b && isPre as bs

/-- JS `s.startsWith(p)` on Lean strings. -/
def jsStartsWith (s p : String) : Bool := isPre p.data s.data

/-- Boolean "needle occurs as a contiguous subsequence of hay". Models a
substring test on JS strings. -/
def containsSeq (needle : List Char) : List Char → Bool
  | [] => isPre needle []
  | c :: t => isPre needle (c :: t) || containsSeq needle t

/-- Split a character list at every character satisfying `p`, keeping empty
chunks; models JS `String.prototype.split` with a single-class separator
regexp (`'a//b'.split('/') = ['a','','b']`). -/
def splitOnPred (p : Char → Bool) : List Char → List (List Char)
  | [] => [[]]
  | c :: cs =>
    let r := splitOnPred p cs
    if p c then [] :: r
    else
      match r with
      | [] => [[c]]
      | s :: rest => (c :: s) :: rest

/-- Nonempty `/`-separated segments of a character list; models the
segment decomposition Node's POSIX path routines perform (empty segments,
produced by duplicate or edge slashes, are dropped by normalization). -/
def segsOfChars (cs : List Char) : List (List Char) :=
  (splitOnPred (fun c => c == '/') cs).filter (fun s => !s.isEmpty)

/-- Nonempty `/`-separated segments of a string. -/
def segsOf (s : String) : List (List Char) := segsOfChars s.data

/-- Join segments with `/` separators (no leading slash); models the string
Node's `path.relative` returns from its segment computation. -/
def joinChars : List (List Char) → List Char
  | [] => []
  | s :: rest => s ++ (rest.foldl (fun a b => a ++ '/' :: b) [])

/-- Join segments into an absolute-path character list (leading slash;
`[]` becomes `/`); models the string `path.resolve` returns. -/
def joinAbsChars (segs : List (List Char)) : List Char := '/' :: joinChars segs

/-- Normalization loop of Node's POSIX `path.resolve` for absolute paths:
`.` and empty segments vanish, `..` pops the previous segment (and is
dropped at the root). `acc` holds already-normalized segments in reverse. -/
def normLoop : List (List Char) → List (List Char) → List (List Char)
  | acc, [] => acc.reverse
  | acc, s :: rest =>
    if s = ['.'] then normLoop acc rest
    else if s = ['.', '.'] then normLoop acc.tail rest
    else normLoop (s :: acc) rest

/-- Normalize the raw segment list of an absolute path. -/
def normSegs (segs : List (List Char)) : List (List Char) := normLoop [] segs

/-- Node POSIX `path.isAbsolute` on a character list. -/
def isAbsChars (cs : List Char) : Bool := isPre ['/'] cs

/-- Node POSIX `path.resolve(base, p)` where `base` is a normalized
absolute path given as a segment list: an absolute `p` is normalized on
its own, a relative `p` is appended to `base` and normalized. -/
def resolveFrom (base : List (List Char)) (p : String) : List (List Char) :=
  if isAbsChars p.data then normSegs (segsOf p)
  else normSegs (base ++ segsOf p)

/-- Segment list of the process working directory, as Node's `path.resolve`
uses it (`process.cwd()` is an absolute path; resolution normalizes it). -/
def cwdSegs (cwd : String) : List (List Char) := normSegs (segsOf cwd)

/-- Drop the common leading segments of two segment lists; the heart of
Node's POSIX `path.relative`. -/
def dropCommon : List (List Char) → List (List Char) →
    List (List Char) × List (List Char)
  | f :: fs, t :: ts =>
    if f = t then dropCommon fs ts else (f :: fs, t :: ts)
  | fs, ts => (fs, ts)

/-- Node POSIX `path.relative` on two normalized absolute segment lists,
returned as a segment list: one `..` per remaining `from` segment, then
the remaining `to` segments. -/
def relSegs (f t : List (List Char)) : List (List Char) :=
  let p := dropCommon f t
  List.replicate p.1.length ['.', '.'] ++ p.2

/-- Node POSIX `path.relative` as the character list of the joined path. -/
def relChars (f t : List (List Char)) : List Char := joinChars (relSegs f t)

/-- Node POSIX `path.basename` on a character list: trailing slashes are
trimmed and the last segment is returned. -/
def basenameChars (cs : List Char) : List Char :=
  (((cs.reverse).dropWhile (fun c => c == '/')).takeWhile (fun c => !(c == '/'))).reverse

/-- Node POSIX `path.extname` on a character list: the suffix of the
basename from its last dot, except that a dot in position zero (dotfiles
such as `.env`) and the special name `..` yield the empty extension. -/
def extnameChars (cs : List Char) : List Char :=
  let b := basenameChars cs
  if b = ['.', '.'] then []
  else
    let pre := (b.reverse).takeWhile (fun c => !(c == '.'))
    if pre.length = b.length then []
    else
      let dotPos := b.length - pre.length - 1
      if dotPos = 0 then [] else b.drop dotPos

/-- Replace backslashes by forward slashes; models the
`.replace(/\\/g, '/')` normalization the repository applies to paths. -/
def slashified (cs : List Char) : List Char :=
  cs.map (fun c => if c == '\\' then '/' else c)

/-- Try a predicate on a list and on each of its suffixes, succeeding if
any attempt succeeds; the expansion of a `*` (or `**`) wildcard, which may
consume any run of elements before the rest of the pattern applies. -/
def anySuffix {α : Type} (f : List α → Bool) : List α → Bool
  | [] => f []
  | c :: t => f (c :: t) || anySuffix f t

/-- Glob match of one path segment: `*` matches any (possibly empty) run
of characters within the segment, every other character is literal. Models
`micromatch`'s per-segment matching for the pattern forms the repository
uses (its default patterns contain no `?`, bracket or brace forms). Both
sides are expected pre-lowercased by the caller (`nocase`). -/
def globSegMatch : List Char → List Char → Bool
  | [], s => s.isEmpty
  | p :: ps, s =>
    if p = '*' then anySuffix (globSegMatch ps) s
    else
      match s with
      | [] => false
      | c :: cs => p == c && globSegMatch ps cs

/-- Glob match of a whole path, segment list against segment list: a `**`
pattern segment matches any (possibly empty) run of path segments, any
other pattern segment must match exactly one path segment. -/
def globSegsMatch : List (List Char) → List (List Char) → Bool
  | [], is => is.isEmpty
  | p :: ps, is =>
    if p = ['*', '*'] then anySuffix (globSegsMatch ps) is
    else
      match is with
      | [] => false
      | i :: it => globSegMatch p i && globSegsMatch ps it

/-- Model of `micromatch.isMatch(s, patterns, { dot: true, nocase: true,
basename: false })` as the repository calls it: `s` matches if any pattern
matches it, comparing `/`-separated segments case-insensitively
(`dot: true` disables dotfile special-casing, so no dot logic appears). -/
def micromatchIsMatch (s : List Char) (patterns : List String) : Bool :=
  patterns.any (fun pat =>
    globSegsMatch (segsOfChars (lowerChars pat.data)) (segsOfChars (lowerChars s)))


/-- DEFAULT_SENSITIVE_PATTERNS of the security module, verbatim. -/
def DEFAULT_SENSITIVE_PATTERNS : List String := [
  ".env",
  ".env.*",
  ".env.local",
  ".env.development",
  ".env.production",
  "**/.env",
  "**/.env.*",
  ".ssh/**",
  "**/.ssh/**",
  "*.pem",
  "*.key",
  "*.pfx",
  "*.p12",
  "**/id_rsa",
  "**/id_rsa.*",
  "**/id_ed25519",
  "**/id_ed25519.*",
  "**/id_dsa",
  "**/id_dsa.*",
  "**/credentials*",
  "**/secrets*",
  "**/secret.*",
  "**/*password*",
  "**/*token*",
  "**/.git/config",
  "**/.gitconfig",
  "*.sqlite",
  "*.sqlite3",
  "*.db",
  "**/.bash_history",
  "**/.zsh_history",
  "**/.node_repl_history",
  "**/.aws/**",
  "**/.azure/**",
  "**/.gcloud/**",
  "**/docker-compose*.yml",
  "**/docker-compose*.yaml"]

/-- Fully-populated security configuration record. -/
structure SecurityConfig where
  allowedDirectories : List String
  sensitivePatterns : List String
  maxFileSize : Nat
  maxFiles : Nat
  allowSymlinks : Bool
deriving DecidableEq

/-- DEFAULT_SECURITY_CONFIG of the security module. -/
def DEFAULT_SECURITY_CONFIG : SecurityConfig :=
  { allowedDirectories := []
    sensitivePatterns := DEFAULT_SENSITIVE_PATTERNS
    maxFileSize := 1024 * 1024
    maxFiles := 500
    allowSymlinks := false }

/-- User-supplied (partial) security configuration: every field optional,
`none` meaning the key is absent, so that JS object spreads are statable. -/
structure SecurityConfigUser where
  allowedDirectories : Option (List String) := none
  sensitivePatterns : Option (List String) := none
  maxFileSize : Option Nat := none
  maxFiles : Option Nat := none
  allowSymlinks : Option Bool := none
deriving DecidableEq

/-- JS spread `{ ...DEFAULT_SECURITY_CONFIG, ...config }` as performed at
the top of `validatePath`: each key present in the user config overrides
the default wholesale (including `sensitivePatterns`). -/
def spreadConfig (config : Option SecurityConfigUser) : SecurityConfig :=
  { allowedDirectories :=
      ((config.bind (·.allowedDirectories)).getD DEFAULT_SECURITY_CONFIG.allowedDirectories)
    sensitivePatterns :=
      ((config.bind (·.sensitivePatterns)).getD DEFAULT_SECURITY_CONFIG.sensitivePatterns)
    maxFileSize :=
      ((config.bind (·.maxFileSize)).getD DEFAULT_SECURITY_CONFIG.maxFileSize)
    maxFiles :=
      ((config.bind (·.maxFiles)).getD DEFAULT_SECURITY_CONFIG.maxFiles)
    allowSymlinks :=
      ((config.bind (·.allowSymlinks)).getD DEFAULT_SECURITY_CONFIG.allowSymlinks) }

/-- mergeSecurityConfig of the security module: spread the defaults and the
user config, then overwrite `sensitivePatterns` with the concatenation of
the default patterns and the user patterns (additive merge). -/
def mergeSecurityConfig (userConfig : Option SecurityConfigUser) : SecurityConfig :=
  { spreadConfig userConfig with
    sensitivePatterns :=
      DEFAULT_SENSITIVE_PATTERNS ++ ((userConfig.bind (·.sensitivePatterns)).getD []) }

/-- Security-error codes of the `SecurityError` class. -/
inductive SecCode
  | PATH_TRAVERSAL
  | SENSITIVE_FILE
  | ACCESS_DENIED
  | SYMLINK_DETECTED
  | SIZE_EXCEEDED
  | FILE_LIMIT_EXCEEDED
deriving DecidableEq

/-- SecurityError modelled by its code, its optional path, and (for the
size/count limit errors) the pair of numbers the thrown message is
formatted from. -/
structure SecurityError where
  code : SecCode
  path : Option String := none
  limitInfo : Option (Nat × Nat) := none
deriving DecidableEq

/-- Resolved-relative path computed by `hasPathTraversal`: the base is
`path.resolve(basePath)` (or the working directory), the input is resolved
against the base, and `path.relative` of the two is taken, returned as the
character list of the joined string. -/
def traversalRel (inputPath : String) (basePath : Option String) (cwd : String) : List Char :=
  let base :=
    match basePath with
    | some b => resolveFrom (cwdSegs cwd) b
    | none => cwdSegs cwd
  relChars base (resolveFrom base inputPath)

/-- hasPathTraversal of the security module: flag when the resolved
relative path starts with `..` or is absolute, or when any raw segment of
the input (split on `/` or `\`) is exactly `..`. -/
def hasPathTraversal (inputPath : String) (basePath : Option String) (cwd : String) : Bool :=
  let relativePath := traversalRel inputPath basePath cwd
  if isPre ['.', '.'] relativePath || isAbsChars relativePath then true
  else
    (splitOnPred (fun c => c == '/' || c == '\\') inputPath.data).any
      (fun segment => segment = ['.', '.'])

/-- isSensitiveFile of the security module: slash-normalize the path, then
micromatch both the full normalized path and its basename against the
patterns (dot and nocase options set). -/
def isSensitiveFile (filePath : String) (patterns : List String) : Bool :=
  let normalizedPath := slashified filePath.data
  let fileName := basenameChars normalizedPath
  let isMatch := micromatchIsMatch normalizedPath patterns
  let fileNameMatch := micromatchIsMatch fileName patterns
  isMatch || fileNameMatch

/-- isWithinAllowedDirectory of the security module: an empty allow-list
admits everything; otherwise some allowed directory must have a relative
path to the file that neither starts with `..` nor is absolute. -/
def isWithinAllowedDirectory (filePath : String) (allowedDirs : List String) (cwd : String) : Bool :=
  if allowedDirs.isEmpty then true
  else
    let absoluteFilePath := resolveFrom (cwdSegs cwd) filePath
    allowedDirs.any (fun dir =>
      let absoluteDir := resolveFrom (cwdSegs cwd) dir
      let relativePath := relChars absoluteDir absoluteFilePath
      !(isPre ['.', '.'] relativePath) && !(isAbsChars relativePath))

/-- Node error codes distinguished by the repository's catch handlers. -/
inductive NodeErrCode
  | ENOENT
  | EACCES
  | EISDIR
  | OTHER
deriving DecidableEq

/-- Result of `fs.stat` / `fs.lstat`. -/
structure Stats where
  size : Nat
  isDirectory : Bool
  isSymbolicLink : Bool
deriving DecidableEq

/-- Filesystem oracle: the outcome of each external call the modelled
functions make. `glob` stands for the `fast-glob` invocation of
`readDirectory` (arguments: the scan cwd, the include patterns, the ignore
patterns). -/
structure FS where
  lstat : String → Except NodeErrCode Stats
  statFn : String → Except NodeErrCode Stats
  readContent : String → Except NodeErrCode String
  glob : String → List String → List String → List String

/-- isSymlink of the security module: `lstat` and ask for link status; any
lookup failure (absent path) is caught and treated as `false`. -/
def isSymlink (filePath : String) (fs : FS) : Bool :=
  match fs.lstat filePath with
  | Except.ok stats => stats.isSymbolicLink
  | Except.error _ => false

/-- getFileSize of the security module: `stat` and return the size. -/
def getFileSize (filePath : String) (fs : FS) : Except NodeErrCode Nat :=
  (fs.statFn filePath).map (·.size)

/-- validatePath of the security module: spread-merge the config, then
check traversal, sensitivity, allow-list containment, and (unless
symlinks are allowed) link status, in that order, throwing the first
failure. A rejection therefore carries exactly one code. -/
def validatePath (inputPath : String) (config : Option SecurityConfigUser)
    (cwd : String) (fs : FS) : Except SecurityError Unit :=
  let mergedConfig := spreadConfig config
  if hasPathTraversal inputPath none cwd then
    Except.error { code := SecCode.PATH_TRAVERSAL, path := some inputPath }
  else if isSensitiveFile inputPath mergedConfig.sensitivePatterns then
    Except.error { code := SecCode.SENSITIVE_FILE, path := some inputPath }
  else if !(isWithinAllowedDirectory inputPath mergedConfig.allowedDirectories cwd) then
    Except.error { code := SecCode.ACCESS_DENIED, path := some inputPath }
  else if !mergedConfig.allowSymlinks && isSymlink inputPath fs then
    Except.error { code := SecCode.SYMLINK_DETECTED, path := some inputPath }
  else
    Except.ok ()

/-- validateFileSize of the security module: stat the file and throw
`SIZE_EXCEEDED` when the statted size exceeds the limit (the thrown
message formats both the size and the limit); a stat failure is caught and
ignored, deferring to the subsequent read. -/
def validateFileSize (filePath : String) (maxSize : Nat) (fs : FS) : Except SecurityError Unit :=
  match getFileSize filePath fs with
  | Except.error _ => Except.ok ()
  | Except.ok size =>
    if size > maxSize then
      Except.error { code := SecCode.SIZE_EXCEEDED, path := some filePath,
                     limitInfo := some (size, maxSize) }
    else Except.ok ()

/-- validateFileCount of the security module: throw `FILE_LIMIT_EXCEEDED`
when the count exceeds the limit (the message formats both numbers). -/
def validateFileCount (count : Nat) (maxFiles : Nat) : Except SecurityError Unit :=
  if count > maxFiles then
    Except.error { code := SecCode.FILE_LIMIT_EXCEEDED, limitInfo := some (count, maxFiles) }
  else Except.ok ()

/-- DEFAULT_EXCLUDE_PATTERNS of the file-reader module, verbatim. -/
def DEFAULT_EXCLUDE_PATTERNS : List String := [
  "node_modules/**", "vendor/**", "bower_components/**",
  "dist/**", "build/**", "out/**", ".next/**", ".nuxt/**", ".output/**",
  "coverage/**", ".nyc_output/**",
  ".cache/**", ".parcel-cache/**", ".turbo/**",
  "*.lock", "package-lock.json", "yarn.lock", "pnpm-lock.yaml",
  "*.min.js", "*.min.css", "*.bundle.js", "*.chunk.js",
  "*.map", "*.js.map", "*.css.map",
  ".git/**", ".svn/**", ".hg/**",
  ".idea/**", ".vscode/**", "*.code-workspace",
  "*.log", "logs/**",
  "tmp/**", "temp/**", ".tmp/**"]

/-- BINARY_EXTENSIONS of the file-reader module, verbatim (including the
repeated `.ico` entry of the source table). -/
def BINARY_EXTENSIONS : List String := [
  ".png", ".jpg", ".jpeg", ".gif", ".webp", ".ico", ".bmp", ".svg", ".tiff", ".avif",
  ".mp3", ".wav", ".ogg", ".flac", ".aac", ".m4a", ".wma",
  ".mp4", ".avi", ".mov", ".mkv", ".wmv", ".flv", ".webm", ".m4v",
  ".zip", ".tar", ".gz", ".rar", ".7z", ".bz2", ".xz",
  ".exe", ".dll", ".so", ".dylib", ".bin", ".app", ".msi",
  ".pdf", ".doc", ".docx", ".xls", ".xlsx", ".ppt", ".pptx", ".odt", ".ods", ".odp",
  ".woff", ".woff2", ".ttf", ".eot", ".otf",
  ".db", ".sqlite", ".sqlite3", ".mdb",
  ".class", ".jar", ".pyc", ".pyo", ".o", ".obj", ".a", ".lib",
  ".ico", ".icns", ".cur"]

/-- LANGUAGE_MAP of the file-reader module, verbatim. -/
def LANGUAGE_MAP : List (String × String) := [
  (".js", "JavaScript"), (".jsx", "JavaScript (JSX)"), (".ts", "TypeScript"),
  (".tsx", "TypeScript (TSX)"), (".mjs", "JavaScript (ESM)"), (".cjs", "JavaScript (CommonJS)"),
  (".html", "HTML"), (".htm", "HTML"), (".css", "CSS"), (".scss", "SCSS"),
  (".sass", "Sass"), (".less", "Less"), (".vue", "Vue"), (".svelte", "Svelte"),
  (".py", "Python"), (".pyw", "Python"), (".pyx", "Cython"), (".pyi", "Python (Stub)"),
  (".java", "Java"), (".kt", "Kotlin"), (".kts", "Kotlin Script"), (".scala", "Scala"),
  (".groovy", "Groovy"),
  (".c", "C"), (".h", "C Header"), (".cpp", "C++"), (".cc", "C++"), (".cxx", "C++"),
  (".hpp", "C++ Header"), (".hxx", "C++ Header"),
  (".go", "Go"), (".rs", "Rust"), (".rb", "Ruby"), (".erb", "ERB"), (".php", "PHP"),
  (".swift", "Swift"),
  (".sh", "Shell"), (".bash", "Bash"), (".zsh", "Zsh"), (".fish", "Fish"),
  (".ps1", "PowerShell"), (".bat", "Batch"), (".cmd", "Batch"),
  (".json", "JSON"), (".yaml", "YAML"), (".yml", "YAML"), (".toml", "TOML"),
  (".xml", "XML"), (".ini", "INI"), (".cfg", "Config"), (".conf", "Config"),
  (".csv", "CSV"), (".tsv", "TSV"),
  (".md", "Markdown"), (".mdx", "MDX"), (".rst", "reStructuredText"), (".txt", "Plain Text"),
  (".sql", "SQL"), (".graphql", "GraphQL"), (".gql", "GraphQL"),
  (".r", "R"), (".R", "R"), (".lua", "Lua"), (".pl", "Perl"),
  (".ex", "Elixir"), (".exs", "Elixir Script"), (".erl", "Erlang"), (".hrl", "Erlang Header"),
  (".clj", "Clojure"), (".cljs", "ClojureScript"), (".dart", "Dart"), (".zig", "Zig"),
  (".nim", "Nim"), (".ml", "OCaml"), (".mli", "OCaml Interface"),
  (".fs", "F#"), (".fsx", "F# Script"), (".hs", "Haskell"),
  (".dockerfile", "Dockerfile"),
  (".ejs", "EJS"), (".hbs", "Handlebars"), (".pug", "Pug"), (".jade", "Jade"),
  (".njk", "Nunjucks"), (".twig", "Twig"), (".jinja", "Jinja"), (".jinja2", "Jinja2")]

/-- detectLanguage of the file-reader module: case-insensitive special
basenames first, else a lookup of the lower-cased extension in the
language table (`undefined`, i.e. `none`, when absent). -/
def detectLanguage (filePath : String) : Option String :=
  let ext := String.mk (lowerChars (extnameChars filePath.data))
  let fileName := String.mk (lowerChars (basenameChars filePath.data))
  if fileName = "dockerfile" then some "Dockerfile"
  else if fileName = "makefile" ∨ fileName = "gnumakefile" then some "Makefile"
  else if fileName = ".gitignore" ∨ fileName = ".dockerignore" then some "Ignore File"
  else if fileName = ".editorconfig" then some "EditorConfig"
  else (LANGUAGE_MAP.find? (fun kv => kv.1 = ext)).map (·.2)

/-- isBinaryFile of the file-reader module: the lower-cased extension is in
the binary-extension table. -/
def isBinaryFile (filePath : String) : Bool :=
  let ext := String.mk (lowerChars (extnameChars filePath.data))
  BINARY_EXTENSIONS.contains ext

/-- Failure kinds of the `FileReadError` class, distinguished in the source
only by their message text: the binary-file rejection, the `ENOENT` /
`EACCES` / `EISDIR` mappings, the not-a-directory rejection of
`readDirectory`, and the generic wrap. -/
inductive FRKind
  | BINARY
  | NOT_FOUND
  | ACCESS_DENIED
  | IS_DIRECTORY
  | NOT_DIRECTORY
  | READ_FAILED
deriving DecidableEq

/-- FileReadError modelled by its kind and path. -/
structure FileReadError where
  kind : FRKind
  filePath : String
deriving DecidableEq

/-- Error family a reader call can surface: a `SecurityError`, a
`FileReadError`, or (only from `readDirectory`'s stat catch) a re-thrown
raw Node error. -/
inductive ReadErr
  | sec (e : SecurityError)
  | fre (e : FileReadError)
  | node (c : NodeErrCode)
deriving DecidableEq

/-- Mapping of Node filesystem error codes to `FileReadError`s, as done in
`readFile`'s catch handler. -/
def mapNodeError (c : NodeErrCode) (filePath : String) : FileReadError :=
  match c with
  | NodeErrCode.ENOENT => { kind := FRKind.NOT_FOUND, filePath := filePath }
  | NodeErrCode.EACCES => { kind := FRKind.ACCESS_DENIED, filePath := filePath }
  | NodeErrCode.EISDIR => { kind := FRKind.IS_DIRECTORY, filePath := filePath }
  | NodeErrCode.OTHER => { kind := FRKind.READ_FAILED, filePath := filePath }

/-- FileContent record returned by the readers. -/
structure FileContent where
  path : String
  absolutePath : String
  content : String
  size : Nat
  language : Option String
deriving DecidableEq

/-- readFile of the file-reader module, with an explicit count of content
reads performed (the second component: how many times `fs.readFile` was
invoked): validate, reject binary, resolve, stat, enforce the size ceiling
from the stat result, then read and assemble the `FileContent`. -/
def readFile (filePath : String) (config : Option SecurityConfigUser)
    (cwd : String) (fs : FS) : Except ReadErr FileContent × Nat :=
  match validatePath filePath config cwd fs with
  | Except.error e => (Except.error (ReadErr.sec e), 0)
  | Except.ok _ =>
    if isBinaryFile filePath then
      (Except.error (ReadErr.fre { kind := FRKind.BINARY, filePath := filePath }), 0)
    else
      let absolutePath := String.mk (joinAbsChars (resolveFrom (cwdSegs cwd) filePath))
      match fs.statFn absolutePath with
      | Except.error c => (Except.error (ReadErr.fre (mapNodeError c filePath)), 0)
      | Except.ok stats =>
        let maxSize := (config.bind (·.maxFileSize)).getD DEFAULT_SECURITY_CONFIG.maxFileSize
        match validateFileSize absolutePath maxSize fs with
        | Except.error se => (Except.error (ReadErr.sec se), 0)
        | Except.ok _ =>
          match fs.readContent absolutePath with
          | Except.error c => (Except.error (ReadErr.fre (mapNodeError c filePath)), 1)
          | Except.ok content =>
            (Except.ok { path := filePath,
                         absolutePath := String.mk (slashified absolutePath.data),
                         content := content,
                         size := stats.size,
                         language := detectLanguage filePath }, 1)

/-- Per-item record pushed onto the internal `errors` array of `readFiles`
(`{ path, error: error.message }`); the message is modelled by the caught
error value itself. -/
structure ReadDiagnostic where
  path : String
  error : ReadErr
deriving DecidableEq

/-- Body of `readFiles` before its return statement: the input-ordered
successful results, the internal diagnostics list, and the total count of
content reads. A binary path is skipped before any validation or I/O; a
caught failure is pushed as a diagnostic and excluded from the results.
(The source fans the items out with `Promise.all`; item computations are
independent, and the `results` array is rebuilt in input order from the
settled array. The `errors` push order under concurrency is completion
order; this model records it in input order, which the repository never
observes beyond logging.) -/
def readFilesAux (filePaths : List String) (config : Option SecurityConfigUser)
    (cwd : String) (fs : FS) : (List FileContent × List ReadDiagnostic) × Nat :=
  match filePaths with
  | [] => (([], []), 0)
  | filePath :: rest =>
    let r := readFilesAux rest config cwd fs
    if isBinaryFile filePath then r
    else
      match readFile filePath config cwd fs with
      | (Except.ok content, n) => ((content :: r.1.1, r.1.2), n + r.2)
      | (Except.error e, n) =>
        ((r.1.1, { path := filePath, error := e } :: r.1.2), n + r.2)

/-- readFiles of the file-reader module (with the read counter): the
internal diagnostics are only logged (`console.warn` of the first five and
a remainder count) and are not part of the returned value, which is the
successful-result list alone. The function is total: no per-item failure
escapes. -/
def readFiles (filePaths : List String) (config : Option SecurityConfigUser)
    (cwd : String) (fs : FS) : List FileContent × Nat :=
  let r := readFilesAux filePaths config cwd fs
  (r.1.1, r.2)

/-- Normalization loop for relative paths (Node `path.normalize` /
`path.join` semantics): leading `..` segments are preserved rather than
dropped. -/
def normRelLoop : List (List Char) → List (List Char) → List (List Char)
  | acc, [] => acc.reverse
  | acc, s :: rest =>
    if s = ['.'] then normRelLoop acc rest
    else if s = ['.', '.'] then
      match acc with
      | [] => normRelLoop [['.', '.']] rest
      | top :: tl =>
        if top = ['.', '.'] then normRelLoop (s :: top :: tl) rest
        else normRelLoop tl rest
    else normRelLoop (s :: acc) rest

/-- Node POSIX `path.join` of two parts: concatenate with a separator
(skipping an empty part) and normalize; an empty result is `.`. -/
def pathJoin (a b : String) : String :=
  let cs :=
    if a.data.isEmpty then b.data
    else if b.data.isEmpty then a.data
    else a.data ++ '/' :: b.data
  if isAbsChars cs then String.mk (joinAbsChars (normLoop [] (segsOfChars cs)))
  else
    let j := joinChars (normRelLoop [] (segsOfChars cs))
    String.mk (if j.isEmpty then ['.'] else j)

/-- Options of `readDirectory`. The source's `include` / `exclude` keys are
rendered as `includeGlobs` / `excludeGlobs`. -/
structure ReadDirOptions where
  includeGlobs : Option (List String) := none
  excludeGlobs : Option (List String) := none
  maxFiles : Option Nat := none
  securityConfig : Option SecurityConfigUser := none

/-- readDirectory of the file-reader module (with the read counter):
validate the directory path, stat it (ENOENT becomes a not-found
`FileReadError`, any other stat failure is re-thrown raw, a non-directory
is rejected), enumerate with `fast-glob` under the merged ignore list,
check the enumerated count against `maxFiles` before any content read,
then batch-read and rewrite each result `path` relative to the requested
root. -/
def readDirectory (directory : String) (options : Option ReadDirOptions)
    (cwd : String) (fs : FS) : Except ReadErr (List FileContent) × Nat :=
  match validatePath directory (options.bind (·.securityConfig)) cwd fs with
  | Except.error e => (Except.error (ReadErr.sec e), 0)
  | Except.ok _ =>
    let absoluteDir := String.mk (joinAbsChars (resolveFrom (cwdSegs cwd) directory))
    match fs.statFn absoluteDir with
    | Except.error NodeErrCode.ENOENT =>
      (Except.error (ReadErr.fre { kind := FRKind.NOT_FOUND, filePath := directory }), 0)
    | Except.error c => (Except.error (ReadErr.node c), 0)
    | Except.ok stats =>
      if !stats.isDirectory then
        (Except.error (ReadErr.fre { kind := FRKind.NOT_DIRECTORY, filePath := directory }), 0)
      else
        let includeGlobs := (options.bind (·.includeGlobs)).getD ["**/*"]
        let userExclude := (options.bind (·.excludeGlobs)).getD []
        let exclude := DEFAULT_EXCLUDE_PATTERNS ++ userExclude
        let binaryExclude := BINARY_EXTENSIONS.map (fun ext => "**/*" ++ ext)
        let files := fs.glob absoluteDir includeGlobs (exclude ++ binaryExclude)
        let maxFiles := (options.bind (·.maxFiles)).getD DEFAULT_SECURITY_CONFIG.maxFiles
        match validateFileCount files.length maxFiles with
        | Except.error e => (Except.error (ReadErr.sec e), 0)
        | Except.ok _ =>
          let filePaths := files.map (fun file => pathJoin directory file)
          let r := readFilesAux filePaths (options.bind (·.securityConfig)) cwd fs
          (Except.ok (r.1.1.map (fun file =>
            { file with
              path := String.mk (slashified (relChars
                (resolveFrom (cwdSegs cwd) directory)
                (resolveFrom (cwdSegs cwd) file.absolutePath))) })), r.2)


/-- Decidable equality for `Except`, needed to evaluate the modelled
functions on concrete inputs. -/
instance instDecEqExcept {ε α : Type} [DecidableEq ε] [DecidableEq α] :
    DecidableEq (Except ε α) := fun x y =>
  match x, y with
  | Except.ok a, Except.ok b =>
    if h : a = b then isTrue (by rw [h])
    else isFalse (by intro he; cases he; exact h rfl)
  | Except.error a, Except.error b =>
    if h : a = b then isTrue (by rw [h])
    else isFalse (by intro he; cases he; exact h rfl)
  | Except.ok _, Except.error _ => isFalse (by intro h; cases h)
  | Except.error _, Except.ok _ => isFalse (by intro h; cases h)

/-- Oracle for a filesystem with no entries at all. -/
def emptyFS : FS :=
  { lstat := fun _ => Except.error NodeErrCode.ENOENT
    statFn := fun _ => Except.error NodeErrCode.ENOENT
    readContent := fun _ => Except.error NodeErrCode.ENOENT
    glob := fun _ _ _ => [] }

/-- Oracle for a filesystem whose every stat is a directory and whose scan
enumerates two files. -/
def dirFS : FS :=
  { lstat := fun _ => Except.error NodeErrCode.ENOENT
    statFn := fun _ => Except.ok { size := 0, isDirectory := true, isSymbolicLink := false }
    readContent := fun _ => Except.error NodeErrCode.ENOENT
    glob := fun _ _ _ => ["a.ts", "b.ts"] }

/-- Oracle for a filesystem whose every stat reports a 2,000,000-byte
regular file. -/
def bigFS : FS :=
  { lstat := fun _ => Except.error NodeErrCode.ENOENT
    statFn := fun _ => Except.ok { size := 2000000, isDirectory := false, isSymbolicLink := false }
    readContent := fun _ => Except.ok ""
    glob := fun _ _ _ => [] }


/-! Helper lemmas about the character-list and glob machinery. -/

theorem isPre_exists {n h : List Char} (hp : isPre n h = true) : ∃ t, h = n ++ t := by
  induction n generalizing h with
  | nil => exact ⟨h, rfl⟩
  | cons a as ih =>
    cases h with
    | nil => simp [isPre] at hp
    | cons b bs =>
      simp only [isPre, Bool.and_eq_true, beq_iff_eq] at hp
      obtain ⟨t, ht⟩ := ih hp.2
      exact ⟨t, by simp [hp.1, ht]⟩

theorem containsSeq_exists {n h : List Char} (hc : containsSeq n h = true) :
    ∃ pre suf, h = pre ++ (n ++ suf) := by
  induction h with
  | nil =>
    simp only [containsSeq] at hc
    obtain ⟨t, ht⟩ := isPre_exists hc
    exact ⟨[], t, ht⟩
  | cons c t ih =>
    simp only [containsSeq, Bool.or_eq_true] at hc
    cases hc with
    | inl hc =>
      obtain ⟨suf, hs⟩ := isPre_exists hc
      exact ⟨[], suf, hs⟩
    | inr hc =>
      obtain ⟨pre, suf, hs⟩ := ih hc
      exact ⟨c :: pre, suf, by simp [hs]⟩

theorem anySuffix_self {α : Type} {f : List α → Bool} {s : List α} (hf : f s = true) :
    anySuffix f s = true := by
  cases s with
  | nil => simpa [anySuffix] using hf
  | cons c t => simp [anySuffix, hf]

theorem anySuffix_drop {α : Type} {f : List α → Bool} (pre : List α) {s : List α}
    (hf : f s = true) : anySuffix f (pre ++ s) = true := by
  induction pre with
  | nil => simpa using anySuffix_self hf
  | cons c t ih =>
    simp only [List.cons_append, anySuffix]
    simp [ih]

theorem globSegMatch_star_all (s : List Char) : globSegMatch ['*'] s = true := by
  induction s with
  | nil => simp [globSegMatch, anySuffix]
  | cons c t ih => simp_all [globSegMatch, anySuffix]

theorem globSegMatch_lit {lit : List Char} (hl : ∀ c ∈ lit, c ≠ '*') (ps s : List Char) :
    globSegMatch (lit ++ ps) (lit ++ s) = globSegMatch ps s := by
  induction lit with
  | nil => simp
  | cons c t ih =>
    have hc : c ≠ '*' := hl c (by simp)
    have ht : ∀ x ∈ t, x ≠ '*' := fun x hx => hl x (by simp [hx])
    simp [globSegMatch, hc, ih ht]

theorem globSegMatch_star_lit_star {lit x : List Char} (hl : ∀ c ∈ lit, c ≠ '*')
    (hc : containsSeq lit x = true) : globSegMatch ('*' :: (lit ++ ['*'])) x = true := by
  obtain ⟨pre, suf, hx⟩ := containsSeq_exists hc
  subst hx
  have h1 : globSegMatch (lit ++ ['*']) (lit ++ suf) = true := by
    rw [globSegMatch_lit hl]
    exact globSegMatch_star_all suf
  simp only [globSegMatch, if_pos rfl]
  exact anySuffix_drop pre h1

theorem splitOnPred_no_sep {p : Char → Bool} {cs : List Char}
    (h : ∀ c ∈ cs, p c = false) : splitOnPred p cs = [cs] := by
  induction cs with
  | nil => simp [splitOnPred]
  | cons c t ih =>
    have hc : p c = false := h c (by simp)
    have ht : ∀ x ∈ t, p x = false := fun x hx => h x (by simp [hx])
    simp [splitOnPred, hc, ih ht]

theorem segsOfChars_single {cs : List Char} (hne : cs ≠ [])
    (h : ∀ c ∈ cs, c ≠ '/') : segsOfChars cs = [cs] := by
  have hsep : ∀ c ∈ cs, (c == '/') = false := by
    intro c hc
    simpa using h c hc
  simp [segsOfChars, splitOnPred_no_sep hsep, hne]

theorem basenameChars_no_slash {cs : List Char} {c : Char}
    (hc : c ∈ basenameChars cs) : c ≠ '/' := by
  simp only [basenameChars, List.mem_reverse] at hc
  have := List.mem_takeWhile_imp hc
  simpa using this

theorem char_toNat_ofNat {n : Nat} (h : n.isValidChar) : (Char.ofNat n).toNat = n := by
  simp [Char.ofNat, h, Char.toNat, Char.ofNatAux, UInt32.toNat, UInt32.ofNatCore]

theorem asciiLower_ne_slash {c : Char} (hc : c ≠ '/') : asciiLower c ≠ '/' := by
  unfold asciiLower
  by_cases hb : 65 ≤ c.toNat ∧ c.toNat ≤ 90
  · rw [if_pos hb]
    intro he
    have hv : (c.toNat + 32).isValidChar := Or.inl (by omega)
    have := char_toNat_ofNat hv
    rw [he] at this
    have h47 : ('/').toNat = 47 := by decide
    omega
  · rw [if_neg hb]; exact hc

theorem lowerChars_no_slash {cs : List Char} (h : ∀ c ∈ cs, c ≠ '/') :
    ∀ c ∈ lowerChars cs, c ≠ '/' := by
  intro c hc
  simp only [lowerChars, List.mem_map] at hc
  obtain ⟨c0, hc0, he⟩ := hc
  rw [← he]
  exact asciiLower_ne_slash (h c0 hc0)

theorem normLoop_append (acc xs ys : List (List Char)) :
    normLoop acc (xs ++ ys) = normLoop ((normLoop acc xs).reverse) ys := by
  induction xs generalizing acc with
  | nil => simp [normLoop]
  | cons s rest ih =>
    by_cases h1 : s = ['.']
    · simp [normLoop, h1, ih]
    · by_cases h2 : s = ['.', '.']
      · simp [normLoop, h1, h2, ih]
      · simp [normLoop, h1, h2, ih]

theorem normLoop_push {acc : List (List Char)} {v : List Char}
    (h1 : v ≠ ['.']) (h2 : v ≠ ['.', '.']) :
    normLoop acc [v] = acc.reverse ++ [v] := by
  simp [normLoop, h1, h2]

theorem normLoop_mem_ne {acc xs : List (List Char)}
    (hacc : ∀ t ∈ acc, t ≠ ['.'] ∧ t ≠ ['.', '.']) :
    ∀ s ∈ normLoop acc xs, s ≠ ['.'] ∧ s ≠ ['.', '.'] := by
  induction xs generalizing acc with
  | nil =>
    intro s hs
    rw [normLoop] at hs
    exact hacc s (by simpa using hs)
  | cons x rest ih =>
    intro s hs
    by_cases h1 : x = ['.']
    · rw [normLoop, if_pos h1] at hs
      exact ih hacc s hs
    · by_cases h2 : x = ['.', '.']
      · rw [normLoop, if_neg h1, if_pos h2] at hs
        refine ih ?_ s hs
        intro t ht
        exact hacc t (List.mem_of_mem_tail ht)
      · rw [normLoop, if_neg h1, if_neg h2] at hs
        refine ih ?_ s hs
        intro t ht
        rcases List.mem_cons.1 ht with h | h
        · exact h ▸ ⟨h1, h2⟩
        · exact hacc t h

theorem normLoop_of_clean {ys : List (List Char)}
    (h : ∀ s ∈ ys, s ≠ ['.'] ∧ s ≠ ['.', '.']) (acc : List (List Char)) :
    normLoop acc ys = acc.reverse ++ ys := by
  induction ys generalizing acc with
  | nil => simp [normLoop]
  | cons y rest ih =>
    have hy := h y (by simp)
    have hr : ∀ s ∈ rest, s ≠ ['.'] ∧ s ≠ ['.', '.'] := fun s hs => h s (by simp [hs])
    rw [normLoop, if_neg hy.1, if_neg hy.2, ih hr]
    simp

theorem normSegs_idem (xs : List (List Char)) : normSegs (normSegs xs) = normSegs xs := by
  have hclean : ∀ s ∈ normSegs xs, s ≠ ['.'] ∧ s ≠ ['.', '.'] :=
    normLoop_mem_ne (by simp)
  rw [normSegs, normLoop_of_clean hclean]
  simp

theorem normSegs_append_push {xs : List (List Char)} {v : List Char}
    (h1 : v ≠ ['.']) (h2 : v ≠ ['.', '.']) :
    normSegs (xs ++ [v]) = normSegs xs ++ [v] := by
  rw [normSegs, normLoop_append, normLoop_push h1 h2]
  simp [normSegs]

theorem normSegs_append_dot_push {xs : List (List Char)} {v : List Char}
    (h1 : v ≠ ['.']) (h2 : v ≠ ['.', '.']) :
    normSegs (xs ++ [['.'], v]) = normSegs xs ++ [v] := by
  rw [normSegs, normLoop_append]
  rw [show normLoop (normLoop [] xs).reverse [['.'], v]
      = normLoop (normLoop [] xs).reverse [v] from by rw [normLoop, if_pos rfl]]
  rw [normLoop_push h1 h2]
  simp [normSegs]

theorem dropCommon_self_append (xs ys : List (List Char)) :
    dropCommon xs (xs ++ ys) = ([], ys) := by
  induction xs with
  | nil => cases ys <;> simp [dropCommon]
  | cons x t ih => simp [dropCommon, ih]

theorem relSegs_self_append (xs ys : List (List Char)) : relSegs xs (xs ++ ys) = ys := by
  simp [relSegs, dropCommon_self_append]

/-! Branch characterization of `validatePath`: check order and outcomes. -/

theorem validatePath_traversal {inputPath : String} {config : Option SecurityConfigUser}
    {cwd : String} {fs : FS} (h : hasPathTraversal inputPath none cwd = true) :
    validatePath inputPath config cwd fs
      = Except.error { code := SecCode.PATH_TRAVERSAL, path := some inputPath } := by
  simp [validatePath, h]

theorem hasPathTraversal_of_rel {inputPath cwd : String}
    (h : (isPre ['.', '.'] (traversalRel inputPath none cwd)
          || isAbsChars (traversalRel inputPath none cwd)) = true) :
    hasPathTraversal inputPath none cwd = true := by
  simp only [hasPathTraversal]
  rw [if_pos h]

theorem validatePath_sensitive {inputPath : String} {config : Option SecurityConfigUser}
    {cwd : String} {fs : FS}
    (h1 : hasPathTraversal inputPath none cwd = false)
    (h2 : isSensitiveFile inputPath (spreadConfig config).sensitivePatterns = true) :
    validatePath inputPath config cwd fs
      = Except.error { code := SecCode.SENSITIVE_FILE, path := some inputPath } := by
  simp [validatePath, h1, h2]

theorem validatePath_access {inputPath : String} {config : Option SecurityConfigUser}
    {cwd : String} {fs : FS}
    (h1 : hasPathTraversal inputPath none cwd = false)
    (h2 : isSensitiveFile inputPath (spreadConfig config).sensitivePatterns = false)
    (h3 : isWithinAllowedDirectory inputPath (spreadConfig config).allowedDirectories cwd
          = false) :
    validatePath inputPath config cwd fs
      = Except.error { code := SecCode.ACCESS_DENIED, path := some inputPath } := by
  simp [validatePath, h1, h2, h3]

theorem validatePath_symlink {inputPath : String} {config : Option SecurityConfigUser}
    {cwd : String} {fs : FS}
    (h1 : hasPathTraversal inputPath none cwd = false)
    (h2 : isSensitiveFile inputPath (spreadConfig config).sensitivePatterns = false)
    (h3 : isWithinAllowedDirectory inputPath (spreadConfig config).allowedDirectories cwd
          = true)
    (h4 : (spreadConfig config).allowSymlinks = false)
    (h5 : isSymlink inputPath fs = true) :
    validatePath inputPath config cwd fs
      = Except.error { code := SecCode.SYMLINK_DETECTED, path := some inputPath } := by
  simp [validatePath, h1, h2, h3, h4, h5]

theorem validatePath_ok {inputPath : String} {config : Option SecurityConfigUser}
    {cwd : String} {fs : FS}
    (h1 : hasPathTraversal inputPath none cwd = false)
    (h2 : isSensitiveFile inputPath (spreadConfig config).sensitivePatterns = false)
    (h3 : isWithinAllowedDirectory inputPath (spreadConfig config).allowedDirectories cwd
          = true)
    (h4 : (!(spreadConfig config).allowSymlinks && isSymlink inputPath fs) = false) :
    validatePath inputPath config cwd fs = Except.ok () := by
  simp [validatePath, h1, h2, h3, h4]

/-! Helper lemmas about `readFile` and the batch reader. -/

theorem readFile_size_exceeded {filePath : String} {config : Option SecurityConfigUser}
    {cwd : String} {fs : FS} {stats : Stats}
    (hval : validatePath filePath config cwd fs = Except.ok ())
    (hbin : isBinaryFile filePath = false)
    (hstat : fs.statFn (String.mk (joinAbsChars (resolveFrom (cwdSegs cwd) filePath)))
             = Except.ok stats)
    (hsize : stats.size > (config.bind (·.maxFileSize)).getD DEFAULT_SECURITY_CONFIG.maxFileSize) :
    readFile filePath config cwd fs
      = (Except.error (ReadErr.sec
          { code := SecCode.SIZE_EXCEEDED,
            path := some (String.mk (joinAbsChars (resolveFrom (cwdSegs cwd) filePath))),
            limitInfo := some (stats.size,
              (config.bind (·.maxFileSize)).getD DEFAULT_SECURITY_CONFIG.maxFileSize) }), 0) := by
  simp [readFile, hval, hbin, hstat, validateFileSize, getFileSize, hsize, Except.map]

theorem readFile_not_found {filePath : String} {config : Option SecurityConfigUser}
    {cwd : String} {fs : FS}
    (hval : validatePath filePath config cwd fs = Except.ok ())
    (hbin : isBinaryFile filePath = false)
    (hstat : fs.statFn (String.mk (joinAbsChars (resolveFrom (cwdSegs cwd) filePath)))
             = Except.error NodeErrCode.ENOENT) :
    readFile filePath config cwd fs
      = (Except.error (ReadErr.fre { kind := FRKind.NOT_FOUND, filePath := filePath }), 0) := by
  simp [readFile, hval, hbin, hstat, mapNodeError]

theorem readFile_ok_path {filePath : String} {config : Option SecurityConfigUser}
    {cwd : String} {fs : FS} {c : FileContent} {n : Nat}
    (h : readFile filePath config cwd fs = (Except.ok c, n)) : c.path = filePath := by
  unfold readFile at h
  rcases hv : validatePath filePath config cwd fs with e | u <;> rw [hv] at h
  · simp at h
  · by_cases hb : isBinaryFile filePath
    · simp [hb] at h
    · simp only [hb, Bool.false_eq_true, if_false] at h
      rcases hs : fs.statFn (String.mk (joinAbsChars (resolveFrom (cwdSegs cwd) filePath)))
        with e2 | stats <;> rw [hs] at h
      · simp at h
      · rcases hvs : validateFileSize
            (String.mk (joinAbsChars (resolveFrom (cwdSegs cwd) filePath)))
            ((config.bind fun x => x.maxFileSize).getD DEFAULT_SECURITY_CONFIG.maxFileSize) fs
          with e3 | u3 <;> rw [hvs] at h
        · simp at h
        · rcases hr : fs.readContent
              (String.mk (joinAbsChars (resolveFrom (cwdSegs cwd) filePath)))
            with e4 | content <;> rw [hr] at h
          · simp at h
          · simp only [Prod.mk.injEq, Except.ok.injEq] at h
            rw [← h.1]

theorem readFilesAux_filter_binary (filePaths : List String)
    (config : Option SecurityConfigUser) (cwd : String) (fs : FS) :
    readFilesAux filePaths config cwd fs
      = readFilesAux (filePaths.filter fun p => !isBinaryFile p) config cwd fs := by
  induction filePaths with
  | nil => rfl
  | cons p rest ih =>
    by_cases hb : isBinaryFile p
    · simp [readFilesAux, List.filter_cons, hb, ih]
    · simp only [readFilesAux, List.filter_cons, hb]
      simp only [Bool.not_false, if_true, readFilesAux, ih]

theorem readFilesAux_mem_results {filePaths : List String}
    {config : Option SecurityConfigUser} {cwd : String} {fs : FS} {c : FileContent}
    (hc : c ∈ (readFilesAux filePaths config cwd fs).1.1) :
    isBinaryFile c.path = false ∧ ∃ n, readFile c.path config cwd fs = (Except.ok c, n) := by
  induction filePaths with
  | nil => simp [readFilesAux] at hc
  | cons p rest ih =>
    by_cases hb : isBinaryFile p
    · simp only [readFilesAux, hb, if_true] at hc
      exact ih hc
    · simp only [readFilesAux, hb, Bool.false_eq_true, if_false] at hc
      rcases hr : readFile p config cwd fs with ⟨res, n⟩
      rcases res with e | content
      · rw [hr] at hc
        exact ih hc
      · rw [hr] at hc
        simp only [List.mem_cons] at hc
        rcases hc with hc | hc
        · subst hc
          have hpath : c.path = p := readFile_ok_path hr
          rw [hpath]
          exact ⟨by simpa using hb, n, hr⟩
        · exact ih hc

theorem readFilesAux_mem_errors {filePaths : List String}
    {config : Option SecurityConfigUser} {cwd : String} {fs : FS} {d : ReadDiagnostic}
    (hd : d ∈ (readFilesAux filePaths config cwd fs).1.2) :
    isBinaryFile d.path = false ∧ ∃ n, readFile d.path config cwd fs = (Except.error d.error, n) := by
  induction filePaths with
  | nil => simp [readFilesAux] at hd
  | cons p rest ih =>
    by_cases hb : isBinaryFile p
    · simp only [readFilesAux, hb, if_true] at hd
      exact ih hd
    · simp only [readFilesAux, hb, Bool.false_eq_true, if_false] at hd
      rcases hr : readFile p config cwd fs with ⟨res, n⟩
      rcases res with e | content
      · rw [hr] at hd
        simp only [List.mem_cons] at hd
        rcases hd with hd | hd
        · subst hd
          exact ⟨by simpa using hb, n, hr⟩
        · exact ih hd
      · rw [hr] at hd
        exact ih hd

theorem readFilesAux_error_mem {filePaths : List String}
    {config : Option SecurityConfigUser} {cwd : String} {fs : FS} {p : String}
    {e : ReadErr} {n : Nat}
    (hp : p ∈ filePaths) (hb : isBinaryFile p = false)
    (hr : readFile p config cwd fs = (Except.error e, n)) :
    ({ path := p, error := e } : ReadDiagnostic) ∈ (readFilesAux filePaths config cwd fs).1.2 := by
  induction filePaths with
  | nil => simp at hp
  | cons q rest ih =>
    simp only [List.mem_cons] at hp
    rcases hp with hp | hp
    · subst hp
      simp only [readFilesAux, hb, Bool.false_eq_true, if_false, hr]
      simp
    · by_cases hq : isBinaryFile q
      · simp only [readFilesAux, hq, if_true]
        exact ih hp
      · simp only [readFilesAux, hq, Bool.false_eq_true, if_false]
        rcases hrq : readFile q config cwd fs with ⟨res, m⟩
        rcases res with e2 | content
        · simp only [List.mem_cons]
          exact Or.inr (ih hp)
        · exact ih hp

theorem containsSeq_ne_nil {n h : List Char} (hc : containsSeq n h = true) (hn : n ≠ []) :
    h ≠ [] := by
  obtain ⟨pre, suf, hs⟩ := containsSeq_exists hc
  intro he
  rw [he] at hs
  rcases List.append_eq_nil.1 hs.symm with ⟨_, h2⟩
  rcases List.append_eq_nil.1 h2 with ⟨h3, _⟩
  exact hn h3

theorem globSegsMatch_doublestar_seg {L pat : List Char}
    (hg : globSegMatch pat L = true) (hpat : pat ≠ ['*', '*']) :
    globSegsMatch [['*', '*'], pat] [L] = true := by
  have h1 : globSegsMatch [pat] [L] = true := by
    rw [globSegsMatch, if_neg hpat]
    simp [globSegsMatch, hg]
  rw [globSegsMatch, if_pos rfl]
  exact anySuffix_self h1

theorem micromatch_token {L : List Char} (hne : L ≠ []) (hns : ∀ c ∈ L, c ≠ '/')
    (hc : containsSeq "token".data L = true) :
    globSegsMatch (segsOfChars (lowerChars "**/*token*".data)) (segsOfChars L) = true := by
  have hpat : segsOfChars (lowerChars "**/*token*".data)
      = [['*', '*'], '*' :: ("token".data ++ ['*'])] := by decide
  rw [hpat, segsOfChars_single hne hns]
  exact globSegsMatch_doublestar_seg
    (globSegMatch_star_lit_star (by decide) hc) (by decide)

theorem micromatch_password {L : List Char} (hne : L ≠ []) (hns : ∀ c ∈ L, c ≠ '/')
    (hc : containsSeq "password".data L = true) :
    globSegsMatch (segsOfChars (lowerChars "**/*password*".data)) (segsOfChars L) = true := by
  have hpat : segsOfChars (lowerChars "**/*password*".data)
      = [['*', '*'], '*' :: ("password".data ++ ['*'])] := by decide
  rw [hpat, segsOfChars_single hne hns]
  exact globSegsMatch_doublestar_seg
    (globSegMatch_star_lit_star (by decide) hc) (by decide)

theorem isSensitiveFile_token_or_password {filePath : String}
    (h : containsSeq "token".data (lowerChars (basenameChars (slashified filePath.data))) = true
       ∨ containsSeq "password".data (lowerChars (basenameChars (slashified filePath.data))) = true) :
    isSensitiveFile filePath DEFAULT_SENSITIVE_PATTERNS = true := by
  have hns : ∀ c ∈ lowerChars (basenameChars (slashified filePath.data)), c ≠ '/' :=
    lowerChars_no_slash (fun c hc => basenameChars_no_slash hc)
  have hmatch : micromatchIsMatch (basenameChars (slashified filePath.data))
      DEFAULT_SENSITIVE_PATTERNS = true := by
    rw [micromatchIsMatch, List.any_eq_true]
    rcases h with h | h
    · have hne : lowerChars (basenameChars (slashified filePath.data)) ≠ [] :=
        containsSeq_ne_nil h (by decide)
      exact ⟨"**/*token*", by decide, micromatch_token hne hns h⟩
    · have hne : lowerChars (basenameChars (slashified filePath.data)) ≠ [] :=
        containsSeq_ne_nil h (by decide)
      exact ⟨"**/*password*", by decide, micromatch_password hne hns h⟩
  simp [isSensitiveFile, hmatch]

theorem traversalRel_dotSlash (cwd : String) (v : List Char)
    (hns : ∀ c ∈ v, c ≠ '/') (hne : v ≠ []) (hd1 : v ≠ ['.']) (hd2 : v ≠ ['.', '.']) :
    traversalRel (String.mk ('.' :: '/' :: v)) none cwd = v := by
  have hsegs : segsOfChars ('.' :: '/' :: v) = [['.'], v] := by
    have hsep : ∀ c ∈ v, (fun c => c == '/') c = false := by
      intro c hc; simpa using hns c hc
    simp [segsOfChars, splitOnPred, splitOnPred_no_sep hsep, hne]
  have habs : isAbsChars ('.' :: '/' :: v) = false := rfl
  simp only [traversalRel, resolveFrom, segsOf]
  rw [habs, if_neg (by simp), hsegs, normSegs_append_dot_push hd1 hd2]
  rw [show normSegs (cwdSegs cwd) = cwdSegs cwd from normSegs_idem _]
  rw [relChars, relSegs_self_append]
  simp [joinChars]

theorem hasPathTraversal_dotSlash_false (cwd : String) (v : List Char)
    (hns : ∀ c ∈ v, c ≠ '/' ∧ c ≠ '\\')
    (hne : v ≠ []) (hd1 : v ≠ ['.']) (hd2 : v ≠ ['.', '.'])
    (hpre : isPre ['.', '.'] v = false) :
    hasPathTraversal (String.mk ('.' :: '/' :: v)) none cwd = false := by
  have hns1 : ∀ c ∈ v, c ≠ '/' := fun c hc => (hns c hc).1
  have hrel := traversalRel_dotSlash cwd v hns1 hne hd1 hd2
  have habs2 : isAbsChars v = false := by
    cases v with
    | nil => exact absurd rfl hne
    | cons c rest =>
      have hc : c ≠ '/' := (hns c (by simp)).1
      have hbe : ('/' == c) = false := beq_eq_false_iff_ne.2 (Ne.symm hc)
      simp [isAbsChars, isPre, hbe]
  have hsplit : splitOnPred (fun c => c == '/' || c == '\\') ('.' :: '/' :: v)
      = [['.'], v] := by
    have hsep : ∀ c ∈ v, (fun c => c == '/' || c == '\\') c = false := by
      intro c hc
      simp only [Bool.or_eq_false_iff, beq_eq_false_iff_ne]
      exact ⟨(hns c hc).1, (hns c hc).2⟩
    simp [splitOnPred, splitOnPred_no_sep hsep]
  simp only [hasPathTraversal, hrel, hpre, habs2, Bool.or_self, if_false]
  rw [hsplit]
  simp [hd2]

/-! Claim theorems. -/

/-- C3: validatePath evaluates its four checks in the fixed order
traversal, sensitive-file, allow-list containment, symlink; the first
failing check determines the outcome, so every rejection carries exactly
one code. In particular every path whose resolved relative path from the
working directory starts with `..` or is absolute is rejected with
`PATH_TRAVERSAL` regardless of the other checks, and
`validatePath("../../etc/passwd")` is rejected with `PATH_TRAVERSAL`. -/
theorem C3_validate_order :
    (∀ (inputPath : String) (config : Option SecurityConfigUser) (cwd : String) (fs : FS),
      (isPre ['.', '.'] (traversalRel inputPath none cwd)
        || isAbsChars (traversalRel inputPath none cwd)) = true →
      validatePath inputPath config cwd fs
        = Except.error { code := SecCode.PATH_TRAVERSAL, path := some inputPath })
  ∧ (∀ (inputPath : String) (config : Option SecurityConfigUser) (cwd : String) (fs : FS),
      hasPathTraversal inputPath none cwd = true →
      validatePath inputPath config cwd fs
        = Except.error { code := SecCode.PATH_TRAVERSAL, path := some inputPath })
  ∧ (∀ (inputPath : String) (config : Option SecurityConfigUser) (cwd : String) (fs : FS),
      hasPathTraversal inputPath none cwd = false →
      isSensitiveFile inputPath (spreadConfig config).sensitivePatterns = true →
      validatePath inputPath config cwd fs
        = Except.error { code := SecCode.SENSITIVE_FILE, path := some inputPath })
  ∧ (∀ (inputPath : String) (config : Option SecurityConfigUser) (cwd : String) (fs : FS),
      hasPathTraversal inputPath none cwd = false →
      isSensitiveFile inputPath (spreadConfig config).sensitivePatterns = false →
      isWithinAllowedDirectory inputPath (spreadConfig config).allowedDirectories cwd = false →
      validatePath inputPath config cwd fs
        = Except.error { code := SecCode.ACCESS_DENIED, path := some inputPath })
  ∧ (∀ (inputPath : String) (config : Option SecurityConfigUser) (cwd : String) (fs : FS),
      hasPathTraversal inputPath none cwd = false →
      isSensitiveFile inputPath (spreadConfig config).sensitivePatterns = false →
      isWithinAllowedDirectory inputPath (spreadConfig config).allowedDirectories cwd = true →
      (spreadConfig config).allowSymlinks = false →
      isSymlink inputPath fs = true →
      validatePath inputPath config cwd fs
        = Except.error { code := SecCode.SYMLINK_DETECTED, path := some inputPath })
  ∧ (∀ (inputPath : String) (config : Option SecurityConfigUser) (cwd : String) (fs : FS),
      hasPathTraversal inputPath none cwd = false →
      isSensitiveFile inputPath (spreadConfig config).sensitivePatterns = false →
      isWithinAllowedDirectory inputPath (spreadConfig config).allowedDirectories cwd = true →
      (!(spreadConfig config).allowSymlinks && isSymlink inputPath fs) = false →
      validatePath inputPath config cwd fs = Except.ok ())
  ∧ (∀ (config : Option SecurityConfigUser) (fs : FS),
      validatePath "../../etc/passwd" config "/home/user" fs
        = Except.error { code := SecCode.PATH_TRAVERSAL, path := some "../../etc/passwd" }) := by
  refine ⟨?_, ?_, ?_, ?_, ?_, ?_, ?_⟩
  · intro inputPath config cwd fs h
    exact validatePath_traversal (hasPathTraversal_of_rel h)
  · intro inputPath config cwd fs h
    exact validatePath_traversal h
  · intro inputPath config cwd fs h1 h2
    exact validatePath_sensitive h1 h2
  · intro inputPath config cwd fs h1 h2 h3
    exact validatePath_access h1 h2 h3
  · intro inputPath config cwd fs h1 h2 h3 h4 h5
    exact validatePath_symlink h1 h2 h3 h4 h5
  · intro inputPath config cwd fs h1 h2 h3 h4
    exact validatePath_ok h1 h2 h3 h4
  · intro config fs
    exact validatePath_traversal (by decide)

/-- C3 witness: the traversal conjunct applied at a concrete input. -/
theorem C3_witness :
    validatePath "../x" none "/base" emptyFS
      = Except.error { code := SecCode.PATH_TRAVERSAL, path := some "../x" } :=
  C3_validate_order.1 "../x" none "/base" emptyFS (by decide)

/-- C5: isWithinAllowedDirectory is true exactly when the allow-list is
empty or some allowed directory has a resolved-relative path to the target
that neither starts with `..` nor is absolute; containment is not
string-prefix confusable (`/var/www-secret/x` is not within `/var/www`,
`/var/www/x` is). -/
theorem C5_within_allowed_spec :
    (∀ (filePath : String) (allowedDirs : List String) (cwd : String),
      isWithinAllowedDirectory filePath allowedDirs cwd = true ↔
        (allowedDirs = [] ∨ ∃ dir ∈ allowedDirs,
          isPre ['.', '.'] (relChars (resolveFrom (cwdSegs cwd) dir)
            (resolveFrom (cwdSegs cwd) filePath)) = false ∧
          isAbsChars (relChars (resolveFrom (cwdSegs cwd) dir)
            (resolveFrom (cwdSegs cwd) filePath)) = false))
  ∧ isWithinAllowedDirectory "/var/www-secret/x" ["/var/www"] "/home" = false
  ∧ isWithinAllowedDirectory "/var/www/x" ["/var/www"] "/home" = true := by
  refine ⟨?_, by decide, by decide⟩
  intro filePath allowedDirs cwd
  by_cases he : allowedDirs = []
  · simp [isWithinAllowedDirectory, he]
  · have hne : allowedDirs.isEmpty = false := by
      simpa [List.isEmpty_iff] using he
    simp [isWithinAllowedDirectory, hne, he, List.any_eq_true, Bool.and_eq_true,
      Bool.not_eq_true']

/-- C6: in a directory read, the enumerated file count is checked against
maxFiles before any content is read; when the scan yields more entries
than maxFiles, the whole operation fails with `FILE_LIMIT_EXCEEDED` and
zero content reads are performed. -/
theorem C6_count_before_read :
    ∀ (directory : String) (options : Option ReadDirOptions) (cwd : String) (fs : FS)
      (stats : Stats),
    validatePath directory (options.bind (·.securityConfig)) cwd fs = Except.ok () →
    fs.statFn (String.mk (joinAbsChars (resolveFrom (cwdSegs cwd) directory)))
      = Except.ok stats →
    stats.isDirectory = true →
    (fs.glob (String.mk (joinAbsChars (resolveFrom (cwdSegs cwd) directory)))
        ((options.bind (·.includeGlobs)).getD ["**/*"])
        ((DEFAULT_EXCLUDE_PATTERNS ++ (options.bind (·.excludeGlobs)).getD [])
          ++ BINARY_EXTENSIONS.map (fun ext => "**/*" ++ ext))).length
      > (options.bind (·.maxFiles)).getD DEFAULT_SECURITY_CONFIG.maxFiles →
    readDirectory directory options cwd fs
      = (Except.error (ReadErr.sec
          { code := SecCode.FILE_LIMIT_EXCEEDED,
            limitInfo := some
              ((fs.glob (String.mk (joinAbsChars (resolveFrom (cwdSegs cwd) directory)))
                  ((options.bind (·.includeGlobs)).getD ["**/*"])
                  ((DEFAULT_EXCLUDE_PATTERNS ++ (options.bind (·.excludeGlobs)).getD [])
                    ++ BINARY_EXTENSIONS.map (fun ext => "**/*" ++ ext))).length,
               (options.bind (·.maxFiles)).getD DEFAULT_SECURITY_CONFIG.maxFiles) }), 0) := by
  intro directory options cwd fs stats hval hstat hdir hcount
  have hcount2 :
      (options.bind fun x => x.maxFiles).getD DEFAULT_SECURITY_CONFIG.maxFiles <
        (fs.glob (String.mk (joinAbsChars (resolveFrom (cwdSegs cwd) directory)))
          ((options.bind fun x => x.includeGlobs).getD ["**/*"])
          (DEFAULT_EXCLUDE_PATTERNS ++ ((options.bind fun x => x.excludeGlobs).getD []
            ++ List.map (fun ext => "**/*" ++ ext) BINARY_EXTENSIONS))).length := by
    simpa [List.append_assoc] using hcount
  simp [readDirectory, hval, hstat, hdir, validateFileCount, hcount2]

/-- C6 witness: a scan of two entries under a maxFiles of one fails with
`FILE_LIMIT_EXCEEDED` before any read. -/
theorem C6_witness :
    readDirectory "proj" (some { maxFiles := some 1 }) "/base" dirFS
      = (Except.error (ReadErr.sec
          { code := SecCode.FILE_LIMIT_EXCEEDED, limitInfo := some (2, 1) }), 0) :=
  C6_count_before_read "proj" (some { maxFiles := some 1 }) "/base" dirFS
    { size := 0, isDirectory := true, isSymbolicLink := false }
    (by decide) (by decide) (by decide) (by decide)

/-- C7: readFile enforces the per-file size ceiling from the stat result
before reading content: a statted size over maxFileSize fails with
`SIZE_EXCEEDED` (carrying the size and the limit) and performs zero
content reads. -/
theorem C7_size_before_read :
    ∀ (filePath : String) (config : Option SecurityConfigUser) (cwd : String) (fs : FS)
      (stats : Stats),
    validatePath filePath config cwd fs = Except.ok () →
    isBinaryFile filePath = false →
    fs.statFn (String.mk (joinAbsChars (resolveFrom (cwdSegs cwd) filePath)))
      = Except.ok stats →
    stats.size > (config.bind (·.maxFileSize)).getD DEFAULT_SECURITY_CONFIG.maxFileSize →
    readFile filePath config cwd fs
      = (Except.error (ReadErr.sec
          { code := SecCode.SIZE_EXCEEDED,
            path := some (String.mk (joinAbsChars (resolveFrom (cwdSegs cwd) filePath))),
            limitInfo := some (stats.size,
              (config.bind (·.maxFileSize)).getD DEFAULT_SECURITY_CONFIG.maxFileSize) }), 0) := by
  intro filePath config cwd fs stats hval hbin hstat hsize
  exact readFile_size_exceeded hval hbin hstat hsize

/-- C7 witness: a 2,000,000-byte file under the default 1 MiB ceiling is
rejected with `SIZE_EXCEEDED` and zero reads. -/
theorem C7_witness :
    readFile "a.ts" none "/base" bigFS
      = (Except.error (ReadErr.sec
          { code := SecCode.SIZE_EXCEEDED, path := some "/base/a.ts",
            limitInfo := some (2000000, 1048576) }), 0) :=
  C7_size_before_read "a.ts" none "/base" bigFS
    { size := 2000000, isDirectory := false, isSymbolicLink := false }
    (by decide) (by decide) (by decide) (by decide)

/-- C8: a nonexistent path that passes the pure checks is not rejected by
validation under allowSymlinks=false (the lstat failure is treated as
"not a symlink"), and the subsequent single-file read fails with the
`NOT_FOUND` read error. -/
theorem C8_missing_path_deferred :
    ∀ (inputPath : String) (config : Option SecurityConfigUser) (cwd : String) (fs : FS),
    hasPathTraversal inputPath none cwd = false →
    isSensitiveFile inputPath (spreadConfig config).sensitivePatterns = false →
    isWithinAllowedDirectory inputPath (spreadConfig config).allowedDirectories cwd = true →
    (spreadConfig config).allowSymlinks = false →
    fs.lstat inputPath = Except.error NodeErrCode.ENOENT →
    isBinaryFile inputPath = false →
    fs.statFn (String.mk (joinAbsChars (resolveFrom (cwdSegs cwd) inputPath)))
      = Except.error NodeErrCode.ENOENT →
    validatePath inputPath config cwd fs = Except.ok ()
    ∧ isSymlink inputPath fs = false
    ∧ readFile inputPath config cwd fs
        = (Except.error (ReadErr.fre { kind := FRKind.NOT_FOUND, filePath := inputPath }), 0) := by
  intro inputPath config cwd fs h1 h2 h3 h4 hlstat hbin hstat
  have hsym : isSymlink inputPath fs = false := by simp [isSymlink, hlstat]
  have hval : validatePath inputPath config cwd fs = Except.ok () :=
    validatePath_ok h1 h2 h3 (by simp [hsym])
  exact ⟨hval, hsym, readFile_not_found hval hbin hstat⟩

/-- C8 witness: a missing ordinary source path on an empty filesystem
passes validation and the read fails `NOT_FOUND`. -/
theorem C8_witness :
    validatePath "src/app.ts" none "/base" emptyFS = Except.ok ()
    ∧ isSymlink "src/app.ts" emptyFS = false
    ∧ readFile "src/app.ts" none "/base" emptyFS
        = (Except.error (ReadErr.fre { kind := FRKind.NOT_FOUND, filePath := "src/app.ts" }), 0) :=
  C8_missing_path_deferred "src/app.ts" none "/base" emptyFS
    (by decide) (by decide) (by decide) (by decide) (by decide) (by decide) (by decide)

/-- C9: in a batch load, every binary-extension path is silently skipped:
the whole computation (results, internal diagnostics, and read count)
equals the computation on the input with binary paths removed, no result
or diagnostic ever carries a binary path, and hence a binary path is never
attempted and produces no diagnostic. -/
theorem C9_binary_skipped :
    (∀ (filePaths : List String) (config : Option SecurityConfigUser) (cwd : String) (fs : FS),
      readFilesAux filePaths config cwd fs
        = readFilesAux (filePaths.filter fun p => !isBinaryFile p) config cwd fs)
  ∧ (∀ (filePaths : List String) (config : Option SecurityConfigUser) (cwd : String) (fs : FS),
      readFiles filePaths config cwd fs
        = readFiles (filePaths.filter fun p => !isBinaryFile p) config cwd fs)
  ∧ (∀ (filePaths : List String) (config : Option SecurityConfigUser) (cwd : String) (fs : FS)
      (c : FileContent), c ∈ (readFilesAux filePaths config cwd fs).1.1 →
      isBinaryFile c.path = false)
  ∧ (∀ (filePaths : List String) (config : Option SecurityConfigUser) (cwd : String) (fs : FS)
      (d : ReadDiagnostic), d ∈ (readFilesAux filePaths config cwd fs).1.2 →
      isBinaryFile d.path = false) := by
  refine ⟨readFilesAux_filter_binary, ?_, ?_, ?_⟩
  · intro filePaths config cwd fs
    simp [readFiles, readFilesAux_filter_binary filePaths config cwd fs]
  · intro filePaths config cwd fs c hc
    exact (readFilesAux_mem_results hc).1
  · intro filePaths config cwd fs d hd
    exact (readFilesAux_mem_errors hd).1

/-- C9 witness: the skip conjunct and the diagnostic conjunct applied at a
concrete batch containing a binary path. -/
theorem C9_witness :
    readFilesAux ["img.png", "missing.ts"] none "/base" emptyFS
      = readFilesAux (["img.png", "missing.ts"].filter fun p => !isBinaryFile p) none "/base" emptyFS
    ∧ isBinaryFile
        ({ path := "missing.ts",
           error := ReadErr.fre { kind := FRKind.NOT_FOUND, filePath := "missing.ts" }
         } : ReadDiagnostic).path = false :=
  ⟨C9_binary_skipped.1 ["img.png", "missing.ts"] none "/base" emptyFS,
   C9_binary_skipped.2.2.2 ["missing.ts"] none "/base" emptyFS
     { path := "missing.ts",
       error := ReadErr.fre { kind := FRKind.NOT_FOUND, filePath := "missing.ts" } }
     (by decide)⟩

/-- C2 counterexample: the batch return value for a one-element batch whose
path fails coincides exactly with the return for the empty batch, although
one diagnostic was recorded internally — so the returned value records no
diagnostics and the claim that the call returns both lists is false. -/
theorem C2_counterexample :
    readFiles ["missing.ts"] none "/base" emptyFS = ([], 0)
  ∧ readFiles [] none "/base" emptyFS = ([], 0)
  ∧ (readFilesAux ["missing.ts"] none "/base" emptyFS).1.2
      = [{ path := "missing.ts",
           error := ReadErr.fre { kind := FRKind.NOT_FOUND, filePath := "missing.ts" } }] := by
  exact ⟨by decide, by decide, by decide⟩

/-- C2 as amended: readFiles catches every per-item failure into an
internal ReadDiagnostic list and excludes the path from the result list
(the batch is total and never raises for an individual bad path), but it
returns only the successful-result list; the diagnostics are logged, not
returned. -/
theorem C2_amended_batch_isolation :
    (∀ (filePaths : List String) (config : Option SecurityConfigUser) (cwd : String) (fs : FS),
      readFiles filePaths config cwd fs
        = ((readFilesAux filePaths config cwd fs).1.1,
           (readFilesAux filePaths config cwd fs).2))
  ∧ (∀ (filePaths : List String) (config : Option SecurityConfigUser) (cwd : String) (fs : FS)
      (p : String) (e : ReadErr) (n : Nat),
      p ∈ filePaths → isBinaryFile p = false →
      readFile p config cwd fs = (Except.error e, n) →
      ({ path := p, error := e } : ReadDiagnostic) ∈ (readFilesAux filePaths config cwd fs).1.2
      ∧ ∀ c ∈ (readFilesAux filePaths config cwd fs).1.1, c.path ≠ p) := by
  refine ⟨fun _ _ _ _ => rfl, ?_⟩
  intro filePaths config cwd fs p e n hp hb hr
  refine ⟨readFilesAux_error_mem hp hb hr, ?_⟩
  intro c hc hpc
  obtain ⟨_, m, hok⟩ := readFilesAux_mem_results hc
  rw [hpc, hr] at hok
  simp at hok

/-- C2 witness: the isolation conjunct applied at a concrete failing
batch element. -/
theorem C2_witness :
    ({ path := "missing.ts",
       error := ReadErr.fre { kind := FRKind.NOT_FOUND, filePath := "missing.ts" }
     } : ReadDiagnostic) ∈ (readFilesAux ["missing.ts"] none "/base" emptyFS).1.2 :=
  (C2_amended_batch_isolation.2 ["missing.ts"] none "/base" emptyFS "missing.ts"
    (ReadErr.fre { kind := FRKind.NOT_FOUND, filePath := "missing.ts" }) 0
    (by decide) (by decide) (by decide)).1

/-- C1 counterexample: supplying a custom sensitivePatterns list drops
every default pattern during validation — `.env` matches a default
pattern and is rejected under the default config, yet the same path
passes validation when the user supplies `sensitivePatterns: ["zzz"]`. -/
theorem C1_counterexample :
    validatePath ".env" (some { sensitivePatterns := some ["zzz"] }) "/base" emptyFS
      = Except.ok ()
  ∧ validatePath ".env" none "/base" emptyFS
      = Except.error { code := SecCode.SENSITIVE_FILE, path := some ".env" }
  ∧ ".env" ∈ DEFAULT_SENSITIVE_PATTERNS
  ∧ (spreadConfig (some { sensitivePatterns := some ["zzz"] })).sensitivePatterns = ["zzz"] := by
  exact ⟨by decide, by decide, by decide, by decide⟩

/-- C1 as amended: mergeSecurityConfig is additive in sensitivePatterns
(defaults kept, user patterns appended) and scalar fields are overridden;
but validatePath merges with a plain object spread, so the configuration
under which path validation actually runs replaces sensitivePatterns
wholesale with the user-supplied list when one is present. -/
theorem C1_amended_config_merge :
    (∀ u : SecurityConfigUser,
      (mergeSecurityConfig (some u)).sensitivePatterns
        = DEFAULT_SENSITIVE_PATTERNS ++ (u.sensitivePatterns.getD []))
  ∧ (∀ (u : SecurityConfigUser) (ps : List String), u.sensitivePatterns = some ps →
      (spreadConfig (some u)).sensitivePatterns = ps)
  ∧ (∀ (u : SecurityConfigUser) (n : Nat), u.maxFileSize = some n →
      (spreadConfig (some u)).maxFileSize = n)
  ∧ (∀ (u : SecurityConfigUser) (n : Nat), u.maxFiles = some n →
      (spreadConfig (some u)).maxFiles = n)
  ∧ (∀ (u : SecurityConfigUser) (b : Bool), u.allowSymlinks = some b →
      (spreadConfig (some u)).allowSymlinks = b)
  ∧ (∀ (inputPath : String) (config : Option SecurityConfigUser) (cwd : String) (fs : FS),
      hasPathTraversal inputPath none cwd = false →
      isSensitiveFile inputPath (spreadConfig config).sensitivePatterns = true →
      validatePath inputPath config cwd fs
        = Except.error { code := SecCode.SENSITIVE_FILE, path := some inputPath }) := by
  refine ⟨?_, ?_, ?_, ?_, ?_, ?_⟩
  · intro u
    simp [mergeSecurityConfig, spreadConfig]
  · intro u ps h
    simp [spreadConfig, h]
  · intro u n h
    simp [spreadConfig, h]
  · intro u n h
    simp [spreadConfig, h]
  · intro u b h
    simp [spreadConfig, h]
  · intro inputPath config cwd fs h1 h2
    exact validatePath_sensitive h1 h2

/-- C1 witness: the override conjunct and the validation conjunct applied
at concrete inputs. -/
theorem C1_witness :
    (spreadConfig (some { sensitivePatterns := some ["custom"] })).sensitivePatterns = ["custom"]
  ∧ validatePath "config/token.ts" none "/base" emptyFS
      = Except.error { code := SecCode.SENSITIVE_FILE, path := some "config/token.ts" } :=
  ⟨C1_amended_config_merge.2.1 { sensitivePatterns := some ["custom"] } ["custom"] rfl,
   C1_amended_config_merge.2.2.2.2.2 "config/token.ts" none "/base" emptyFS
     (by decide) (by decide)⟩

/-- C4 counterexample: the path `..foo` has no segment equal to `..` and
resolves inside the base directory, yet hasPathTraversal flags it, because
the check is a string-prefix test on the relative path; so the claim that
no legitimate filename merely containing `..` is flagged is false. -/
theorem C4_counterexample :
    hasPathTraversal "..foo" none "/base" = true
  ∧ ((splitOnPred (fun c => c == '/' || c == '\\') "..foo".data).all
      (fun segment => segment != ['.', '.'])) = true
  ∧ resolveFrom (cwdSegs "/base") "..foo"
      = [['b', 'a', 's', 'e'], ['.', '.', 'f', 'o', 'o']] := by
  exact ⟨by decide, by decide, by decide⟩

/-- C4 as amended: a legitimate filename containing but not equal to `..`
is never flagged provided it does not itself begin with the two
characters `..`; in particular `hasPathTraversal("./vendor..lib.js")` is
false for every working directory. (A name beginning with `..`, such as
`..foo`, is still flagged by the string-prefix test on the relative
path.) -/
theorem C4_amended_traversal :
    (∀ (cwd : String) (v : List Char),
      (∀ c ∈ v, c ≠ '/' ∧ c ≠ '\\') → v ≠ [] → v ≠ ['.'] → v ≠ ['.', '.'] →
      isPre ['.', '.'] v = false →
      hasPathTraversal (String.mk ('.' :: '/' :: v)) none cwd = false)
  ∧ (∀ cwd : String, hasPathTraversal "./vendor..lib.js" none cwd = false) := by
  refine ⟨?_, ?_⟩
  · intro cwd v hns hne hd1 hd2 hpre
    exact hasPathTraversal_dotSlash_false cwd v hns hne hd1 hd2 hpre
  · intro cwd
    have h := hasPathTraversal_dotSlash_false cwd ("vendor..lib.js".data)
      (by decide) (by decide) (by decide) (by decide) (by decide)
    exact h

/-- C4 witness: the general conjunct applied at a concrete filename
containing the parent-directory marker as a substring. -/
theorem C4_witness :
    hasPathTraversal (String.mk ('.' :: '/' :: ['d', 'a', 't', 'a', '.', '.', 'x']))
      none "/srv" = false :=
  C4_amended_traversal.1 "/srv" ['d', 'a', 't', 'a', '.', '.', 'x']
    (by decide) (by decide) (by decide) (by decide) (by decide)

/-- C10: under the default sensitive patterns, every path whose basename
contains `token` or `password` case-insensitively is classified as
sensitive (the fileName glob match against the default patterns
`**/*token*` / `**/*password*` fires), so validatePath rejects such
ordinary source files — e.g. `src/tokenizer.ts` — with `SENSITIVE_FILE`. -/
theorem C10_token_password_sensitive :
    (∀ filePath : String,
      (containsSeq "token".data (lowerChars (basenameChars (slashified filePath.data))) = true
        ∨ containsSeq "password".data
            (lowerChars (basenameChars (slashified filePath.data))) = true) →
      isSensitiveFile filePath DEFAULT_SENSITIVE_PATTERNS = true)
  ∧ (∀ (filePath : String) (cwd : String) (fs : FS),
      (containsSeq "token".data (lowerChars (basenameChars (slashified filePath.data))) = true
        ∨ containsSeq "password".data
            (lowerChars (basenameChars (slashified filePath.data))) = true) →
      hasPathTraversal filePath none cwd = false →
      validatePath filePath none cwd fs
        = Except.error { code := SecCode.SENSITIVE_FILE, path := some filePath })
  ∧ isSensitiveFile "src/tokenizer.ts" DEFAULT_SENSITIVE_PATTERNS = true := by
  refine ⟨?_, ?_, by decide⟩
  · intro filePath h
    exact isSensitiveFile_token_or_password h
  · intro filePath cwd fs h htrav
    exact validatePath_sensitive htrav (isSensitiveFile_token_or_password h)

/-- C10 witness: the validation conjunct applied at `src/tokenizer.ts`. -/
theorem C10_witness :
    validatePath "src/tokenizer.ts" none "/base" emptyFS
      = Except.error { code := SecCode.SENSITIVE_FILE, path := some "src/tokenizer.ts" } :=
  C10_token_password_sensitive.2.1 "src/tokenizer.ts" "/base" emptyFS
    (Or.inl (by decide)) (by decide)

/-- C5 witness: the containment characterization applied at a concrete
empty allow-list. -/
theorem C5_witness : isWithinAllowedDirectory "src/a.ts" [] "/base" = true :=
  (C5_within_allowed_spec.1 "src/a.ts" [] "/base").2 (Or.inl rfl)
